import Mathlib

/-!
Shallow embedding of `src/ports/hotspot/src/cpu/ppc/vm/vmreg_ppc.cpp`
(`VMRegImpl::set_regName` and `VMRegImpl::as_Register`), together with the
architecture collaborators the file consumes.  The register descriptors and
the `ConcreteRegisterImpl` constants live in `register_ppc.hpp`/`.cpp`, which
is not part of the provided sources, so those are modelled from the spec.
-/

namespace Vmreg

/-- Modelled from the spec: a physical integer (general-purpose) register is an
architecture-defined identifier `0..N-1` (`Register` of `register_ppc.hpp`,
not under `src/`); `::as_Register(0)` denotes the first one. -/
abbrev Register := Nat

/-- Modelled from the spec: `Register::successor()` is the next-numbered
integer register. -/
def Register.successor (r : Nat) : Nat := r + 1

/-- Modelled from the spec: `Register::name()` is the canonical display name
of the integer register (an `r`-prefixed decimal numeral). -/
def Register.name (r : Nat) : String := String.mk ('r' :: Nat.toDigits 10 r)

/-- Modelled from the spec: a physical floating-point register is an
architecture-defined identifier numbered independently of the integer
registers (`FloatRegister` of `register_ppc.hpp`, not under `src/`);
`::as_FloatRegister(0)` denotes the first one. -/
abbrev FloatRegister := Nat

/-- Modelled from the spec: `FloatRegister::successor()` is the next-numbered
float register. -/
def FloatRegister.successor (r : Nat) : Nat := r + 1

/-- Modelled from the spec: `FloatRegister::name()` is the canonical display
name of the float register (an `f`-prefixed decimal numeral). -/
def FloatRegister.name (r : Nat) : String :=
  String.mk ('f' :: Nat.toDigits 10 r)

/-- The three `ConcreteRegisterImpl` constants read by `set_regName`:
`max_gpr`, `max_fpr` and `number_of_registers`.  Their values are defined in
`register_ppc.hpp`, which is not under `src/`; here they are kept as free
parameters of the embedding. -/
structure ArchConsts where
  max_gpr : Nat
  max_fpr : Nat
  number_of_registers : Nat
deriving DecidableEq

/-- Modelled from the spec: the concrete values of the `ConcreteRegisterImpl`
constants in terms of the spec's architecture parameters `MaxGPR`, `MaxFPR`,
`MaxVirtualRegisters`.  The spec states that the integer loop runs until the
cursor reaches `MaxGPR` and the float loop until the cursor reaches
`MaxGPR + MaxFPR`; since the loop bounds in the code are literally `max_gpr`
and `max_fpr`, this fixes `max_gpr = MaxGPR` and `max_fpr = MaxGPR + MaxFPR`
(a cumulative bound), and `number_of_registers = MaxVirtualRegisters` is the
total virtual-register capacity. -/
def archConsts (MaxGPR MaxFPR MaxVirtualRegisters : Nat) : ArchConsts :=
  { max_gpr := MaxGPR
    max_fpr := MaxGPR + MaxFPR
    number_of_registers := MaxVirtualRegisters }

/-- Writing one entry of the global `regName` array: `regName[i] = s`.  The
array contents are modelled as a map from index to `Option String`, where
`none` marks a slot this routine never wrote. -/
def writeName (t : Nat → Option String) (i : Nat) (s : String) :
    Nat → Option String :=
  fun j => if j = i then some s else t j

/-- First loop of `VMRegImpl::set_regName`:
`for ( ; i < ConcreteRegisterImpl::max_gpr ; ) { regName[i++] = reg->name(); reg = reg->successor(); }`
starting from cursor `i` and integer register `reg`.  Returns the final
cursor and the updated table. -/
def fillGprs (max_gpr i reg : Nat) (regName : Nat → Option String) :
    Nat × (Nat → Option String) :=
  if i < max_gpr then
    fillGprs max_gpr (i + 1) (Register.successor reg)
      (writeName regName i (Register.name reg))
  else
    (i, regName)
termination_by max_gpr - i

/-- Second loop of `VMRegImpl::set_regName`:
`for ( ; i < ConcreteRegisterImpl::max_fpr ; ) { regName[i++] = freg->name(); freg = freg->successor(); }`
starting from cursor `i` and float register `freg`. -/
def fillFprs (max_fpr i freg : Nat) (regName : Nat → Option String) :
    Nat × (Nat → Option String) :=
  if i < max_fpr then
    fillFprs max_fpr (i + 1) (FloatRegister.successor freg)
      (writeName regName i (FloatRegister.name freg))
  else
    (i, regName)
termination_by max_fpr - i

/-- Third loop of `VMRegImpl::set_regName`:
`for ( ; i < ConcreteRegisterImpl::number_of_registers; i++) { Unimplemented(); }`.
Each iteration signals the Unimplemented trap and writes nothing; the list
records the indices on which the trap is signalled, as the loop is written. -/
def trapLoop (number_of_registers i : Nat) : List Nat :=
  if i < number_of_registers then i :: trapLoop number_of_registers (i + 1)
  else []
termination_by number_of_registers - i

/-- Outcome of running `VMRegImpl::set_regName`: the contents of the global
`regName` array, the cursor value after each of the first two loops, and the
indices on which the third loop signals the Unimplemented trap (empty means
the routine completes normally). -/
structure BuildResult where
  table : Nat → Option String
  cursorAfterGpr : Nat
  cursorAfterFpr : Nat
  traps : List Nat

/-- `VMRegImpl::set_regName()` from `vmreg_ppc.cpp`: cursor `i` starts at `0`,
`reg = ::as_Register(0)` and `freg = ::as_FloatRegister(0)` start at the first
register of each class, and the three loops run in sequence over the initially
unwritten global `regName` array. -/
def set_regName (c : ArchConsts) : BuildResult :=
  let r1 := fillGprs c.max_gpr 0 0 (fun _ => none)
  let r2 := fillFprs c.max_fpr r1.1 0 r1.2
  { table := r2.2
    cursorAfterGpr := r1.1
    cursorAfterFpr := r2.1
    traps := trapLoop c.number_of_registers r2.1 }

/-- Modelled from the spec: the global `regName` array is declared with
`ConcreteRegisterImpl::number_of_registers` entries (the declaration lives in
the shared `vmreg` code, not under `src/`). -/
def nameTableSize (c : ArchConsts) : Nat := c.number_of_registers

/-- Error taxonomy of the spec for the reverse lookup. -/
inductive RegError where
  | UnimplementedPath
  | OutOfRange
deriving DecidableEq

/-- `VMRegImpl::as_Register()` from `vmreg_ppc.cpp`: the body is a single
`Unimplemented();` — whatever virtual-register index it is asked about, it
signals the unimplemented trap and returns no register. -/
def VMRegImpl.as_Register (_idx : Int) : Except RegError Register :=
  Except.error RegError.UnimplementedPath

/-- Whether a reverse-lookup outcome successfully returned a register. -/
def isOkResult : Except RegError Register → Bool
  | Except.ok _ => true
  | Except.error _ => false

/-- Whether table slot `i` holds a non-empty name. -/
def entryFilled (t : Nat → Option String) (i : Nat) : Bool :=
  match t i with
  | some s => s.length != 0
  | none => false

/-- A physical register of either class, used to state the index-to-register
mapping that `set_regName` establishes. -/
inductive PhysReg where
  | gpr : Nat → PhysReg
  | fpr : Nat → PhysReg
deriving DecidableEq

/-- Canonical display name of a physical register of either class. -/
def PhysReg.regname : PhysReg → String
  | PhysReg.gpr r => Register.name r
  | PhysReg.fpr r => FloatRegister.name r

/-- Successor within a register class. -/
def PhysReg.succReg : PhysReg → PhysReg
  | PhysReg.gpr r => PhysReg.gpr (Register.successor r)
  | PhysReg.fpr r => PhysReg.fpr (FloatRegister.successor r)

/-- The index-to-physical-register mapping established by `set_regName`: the
first `max_gpr` slots take the integer registers in successor order, the
following slots take the float registers in successor order. -/
def indexToPhysReg (max_gpr i : Nat) : PhysReg :=
  if i < max_gpr then PhysReg.gpr i else PhysReg.fpr (i - max_gpr)

theorem gpr_successor_iterate (k s : Nat) :
    Register.successor^[k] s = s + k := by
  induction k generalizing s with
  | zero => simp
  | succ k ih =>
    rw [Function.iterate_succ_apply, ih, Register.successor]
    omega

theorem fpr_successor_iterate (k s : Nat) :
    FloatRegister.successor^[k] s = s + k := by
  induction k generalizing s with
  | zero => simp
  | succ k ih =>
    rw [Function.iterate_succ_apply, ih, FloatRegister.successor]
    omega

theorem gpr_name_length_ne_zero (r : Nat) : (Register.name r).length ≠ 0 := by
  simp [Register.name, String.length]

theorem fpr_name_length_ne_zero (r : Nat) :
    (FloatRegister.name r).length ≠ 0 := by
  simp [FloatRegister.name, String.length]

theorem fillGprs_fst (g i reg : Nat) (t : Nat → Option String) :
    (fillGprs g i reg t).1 = max i g := by
  rw [fillGprs]
  split
  · rw [fillGprs_fst]
    omega
  · omega
termination_by g - i

theorem fillGprs_snd (g i reg : Nat) (t : Nat → Option String) (j : Nat) :
    (fillGprs g i reg t).2 j =
      if i ≤ j ∧ j < g then some (Register.name (reg + (j - i))) else t j := by
  rw [fillGprs]
  split
  · next h =>
    rw [fillGprs_snd]
    simp only [writeName, Register.successor]
    by_cases h1 : i + 1 ≤ j ∧ j < g
    · rw [if_pos h1, if_pos (show i ≤ j ∧ j < g from ⟨by omega, h1.2⟩)]
      have harg : reg + 1 + (j - (i + 1)) = reg + (j - i) := by omega
      rw [harg]
    · rw [if_neg h1]
      by_cases h2 : j = i
      · rw [if_pos h2, if_pos (show i ≤ j ∧ j < g from ⟨by omega, by omega⟩)]
        have harg : reg + (j - i) = reg := by omega
        rw [harg]
      · rw [if_neg h2, if_neg (show ¬(i ≤ j ∧ j < g) from by omega)]
  · next h =>
    rw [if_neg (show ¬(i ≤ j ∧ j < g) from by omega)]
termination_by g - i

theorem fillFprs_fst (f i freg : Nat) (t : Nat → Option String) :
    (fillFprs f i freg t).1 = max i f := by
  rw [fillFprs]
  split
  · rw [fillFprs_fst]
    omega
  · omega
termination_by f - i

theorem fillFprs_snd (f i freg : Nat) (t : Nat → Option String) (j : Nat) :
    (fillFprs f i freg t).2 j =
      if i ≤ j ∧ j < f then some (FloatRegister.name (freg + (j - i))) else t j := by
  rw [fillFprs]
  split
  · next h =>
    rw [fillFprs_snd]
    simp only [writeName, FloatRegister.successor]
    by_cases h1 : i + 1 ≤ j ∧ j < f
    · rw [if_pos h1, if_pos (show i ≤ j ∧ j < f from ⟨by omega, h1.2⟩)]
      have harg : freg + 1 + (j - (i + 1)) = freg + (j - i) := by omega
      rw [harg]
    · rw [if_neg h1]
      by_cases h2 : j = i
      · rw [if_pos h2, if_pos (show i ≤ j ∧ j < f from ⟨by omega, by omega⟩)]
        have harg : freg + (j - i) = freg := by omega
        rw [harg]
      · rw [if_neg h2, if_neg (show ¬(i ≤ j ∧ j < f) from by omega)]
  · next h =>
    rw [if_neg (show ¬(i ≤ j ∧ j < f) from by omega)]
termination_by f - i

theorem trapLoop_mem (n i j : Nat) : j ∈ trapLoop n i ↔ i ≤ j ∧ j < n := by
  rw [trapLoop]
  split
  · next h =>
    rw [List.mem_cons, trapLoop_mem n (i + 1) j]
    omega
  · next h =>
    simp only [List.not_mem_nil, false_iff]
    omega
termination_by n - i

theorem trapLoop_length (n i : Nat) : (trapLoop n i).length = n - i := by
  rw [trapLoop]
  split
  · next h =>
    rw [List.length_cons, trapLoop_length n (i + 1)]
    omega
  · next h =>
    simp only [List.length_nil]
    omega
termination_by n - i

theorem trapLoop_eq_nil (n i : Nat) : trapLoop n i = [] ↔ n ≤ i := by
  rw [← List.length_eq_zero, trapLoop_length]
  omega

theorem set_regName_cursorAfterGpr (c : ArchConsts) :
    (set_regName c).cursorAfterGpr = c.max_gpr := by
  simp only [set_regName, fillGprs_fst]
  omega

theorem set_regName_cursorAfterFpr (c : ArchConsts) :
    (set_regName c).cursorAfterFpr = max c.max_gpr c.max_fpr := by
  simp only [set_regName, fillFprs_fst, fillGprs_fst]
  omega

theorem set_regName_traps (c : ArchConsts) :
    (set_regName c).traps = trapLoop c.number_of_registers (max c.max_gpr c.max_fpr) := by
  simp only [set_regName, fillFprs_fst, fillGprs_fst]
  congr 1
  omega

theorem set_regName_table (c : ArchConsts) (j : Nat) :
    (set_regName c).table j =
      if c.max_gpr ≤ j ∧ j < c.max_fpr then
        some (FloatRegister.name (j - c.max_gpr))
      else if j < c.max_gpr then
        some (Register.name j)
      else none := by
  simp only [set_regName, fillFprs_snd, fillGprs_snd, fillGprs_fst]
  have hmax : max 0 c.max_gpr = c.max_gpr := by omega
  rw [hmax]
  by_cases h1 : c.max_gpr ≤ j ∧ j < c.max_fpr
  · rw [if_pos h1, if_pos h1, Nat.zero_add]
  · rw [if_neg h1, if_neg h1]
    by_cases h2 : j < c.max_gpr
    · rw [if_pos (show 0 ≤ j ∧ j < c.max_gpr from ⟨Nat.zero_le j, h2⟩), if_pos h2,
        Nat.zero_add, Nat.sub_zero]
    · rw [if_neg (show ¬(0 ≤ j ∧ j < c.max_gpr) from by omega), if_neg h2]

theorem archConsts_max_gpr (G F V : Nat) : (archConsts G F V).max_gpr = G := rfl

theorem archConsts_max_fpr (G F V : Nat) :
    (archConsts G F V).max_fpr = G + F := rfl

theorem archConsts_number (G F V : Nat) :
    (archConsts G F V).number_of_registers = V := rfl

theorem entryFilled_of_some (t : Nat → Option String) (i : Nat) (s : String)
    (h : t i = some s) (hs : s.length ≠ 0) : entryFilled t i = true := by
  unfold entryFilled
  rw [h]
  simpa using hs

/-- C1: after `set_regName` runs, every table slot `i` in
`[MaxGPR, MaxGPR + MaxFPR)` holds the canonical display name of the
`(i - MaxGPR)`-th physical float register in successor order starting from the
first float register, and the float-fill loop runs until the cursor reaches
`MaxGPR + MaxFPR`. -/
theorem set_regName_float_slots (G F V : Nat) :
    (set_regName (archConsts G F V)).cursorAfterFpr = G + F ∧
    ∀ i : Nat, G ≤ i → i < G + F →
      (set_regName (archConsts G F V)).table i =
        some (FloatRegister.name (FloatRegister.successor^[i - G] 0)) := by
  constructor
  · rw [set_regName_cursorAfterFpr, archConsts_max_gpr, archConsts_max_fpr]
    omega
  · intro i h1 h2
    rw [set_regName_table, archConsts_max_gpr, archConsts_max_fpr]
    rw [if_pos (show G ≤ i ∧ i < G + F from ⟨h1, h2⟩),
      fpr_successor_iterate, Nat.zero_add]

/-- Witness for the float-slot theorem at `MaxGPR = 32`, `MaxFPR = 32`,
`MaxVirtualRegisters = 100`, slot 32 (the first float slot). -/
theorem set_regName_float_slots_witness :
    (set_regName (archConsts 32 32 100)).table 32 =
      some (FloatRegister.name (FloatRegister.successor^[32 - 32] 0)) :=
  (set_regName_float_slots 32 32 100).2 32 (by decide) (by decide)

/-- C3: after `set_regName` runs, every table slot `i` in `[0, MaxGPR)` holds
the canonical display name of the integer register reached by taking `i`
successor steps from the first integer register. -/
theorem set_regName_int_slots (G F V : Nat) :
    ∀ i : Nat, i < G →
      (set_regName (archConsts G F V)).table i =
        some (Register.name (Register.successor^[i] 0)) := by
  intro i hi
  rw [set_regName_table, archConsts_max_gpr, archConsts_max_fpr]
  rw [if_neg (show ¬(G ≤ i ∧ i < G + F) from by omega), if_pos hi,
    gpr_successor_iterate, Nat.zero_add]

/-- Witness for the integer-slot theorem at `MaxGPR = 32`, `MaxFPR = 32`,
`MaxVirtualRegisters = 100`, slot 0. -/
theorem set_regName_int_slots_witness :
    (set_regName (archConsts 32 32 100)).table 0 =
      some (Register.name (Register.successor^[0] 0)) :=
  set_regName_int_slots 32 32 100 0 (by decide)

/-- C2 as stated fails on the code: with `MaxGPR = 32`, `MaxFPR = 32`,
`MaxVirtualRegisters = 100` the invariant `32 + 32 ≤ 100` holds, yet table
slot 64 is left without any name, so not every entry is non-empty. -/
theorem nameTable_hole_cex :
    32 + 32 ≤ 100 ∧
    entryFilled (set_regName (archConsts 32 32 100)).table 64 = false := by
  refine ⟨by decide, ?_⟩
  unfold entryFilled
  rw [set_regName_table, archConsts_max_gpr, archConsts_max_fpr]
  rw [if_neg (show ¬(32 ≤ 64 ∧ 64 < 32 + 32) from by omega),
    if_neg (show ¬(64 < 32) from by omega)]

/-- C2 amended: the table has exactly `MaxVirtualRegisters` slots; after
`set_regName` every slot in `[0, MaxGPR + MaxFPR)` holds a non-empty name,
while every slot at index `≥ MaxGPR + MaxFPR` is left unwritten (the reference
traps rather than filling those). -/
theorem nameTable_entries (G F V : Nat) (_hinv : G + F ≤ V) :
    nameTableSize (archConsts G F V) = V ∧
    (∀ i, i < G + F →
      entryFilled (set_regName (archConsts G F V)).table i = true) ∧
    (∀ i, G + F ≤ i → (set_regName (archConsts G F V)).table i = none) := by
  refine ⟨rfl, ?_, ?_⟩
  · intro i hi
    by_cases h1 : G ≤ i
    · refine entryFilled_of_some _ _ (FloatRegister.name (i - G)) ?_
        (fpr_name_length_ne_zero _)
      rw [set_regName_table, archConsts_max_gpr, archConsts_max_fpr]
      rw [if_pos (show G ≤ i ∧ i < G + F from ⟨h1, hi⟩)]
    · refine entryFilled_of_some _ _ (Register.name i) ?_
        (gpr_name_length_ne_zero _)
      rw [set_regName_table, archConsts_max_gpr, archConsts_max_fpr]
      rw [if_neg (show ¬(G ≤ i ∧ i < G + F) from by omega),
        if_pos (show i < G from by omega)]
  · intro i hi
    rw [set_regName_table, archConsts_max_gpr, archConsts_max_fpr]
    rw [if_neg (show ¬(G ≤ i ∧ i < G + F) from by omega),
      if_neg (show ¬(i < G) from by omega)]

/-- Witness for the amended table-entries theorem at `MaxGPR = 32`,
`MaxFPR = 32`, `MaxVirtualRegisters = 100`. -/
theorem nameTable_entries_witness :
    32 + 32 ≤ 100 ∧
    entryFilled (set_regName (archConsts 32 32 100)).table 0 = true ∧
    (set_regName (archConsts 32 32 100)).table 65 = none :=
  ⟨by decide, (nameTable_entries 32 32 100 (by decide)).2.1 0 (by decide),
    (nameTable_entries 32 32 100 (by decide)).2.2 65 (by decide)⟩

/-- C4: every call to `VMRegImpl::as_Register` ignores its input, signals the
unimplemented condition, and returns no register. -/
theorem as_Register_always_unimplemented :
    ∀ idx : Int,
      VMRegImpl.as_Register idx = Except.error RegError.UnimplementedPath ∧
      isOkResult (VMRegImpl.as_Register idx) = false :=
  fun _ => ⟨rfl, rfl⟩

/-- C5 as stated fails on the code: at index 0 (a valid integer-register
index for any positive `MaxGPR`, such as the ppc value 32), the reverse
lookup does not return successfully. -/
theorem as_Register_roundtrip_cex :
    isOkResult (VMRegImpl.as_Register 0) = false := rfl

/-- C5 amended: for every `i < MaxGPR`, `NameTable[i]` holds the canonical
name of the `i`-th integer register in successor order, but `as_Register`
signals `UnimplementedPath` and returns no register, so the round-trip law
does not hold. -/
theorem roundtrip_fails (G F V i : Nat) (hi : i < G) :
    (set_regName (archConsts G F V)).table i =
      some (Register.name (Register.successor^[i] 0)) ∧
    VMRegImpl.as_Register i = Except.error RegError.UnimplementedPath ∧
    isOkResult (VMRegImpl.as_Register i) = false := by
  refine ⟨?_, rfl, rfl⟩
  rw [set_regName_table, archConsts_max_gpr, archConsts_max_fpr]
  rw [if_neg (show ¬(G ≤ i ∧ i < G + F) from by omega), if_pos hi,
    gpr_successor_iterate, Nat.zero_add]

/-- Witness for the amended round-trip theorem at `MaxGPR = 32`,
`MaxFPR = 32`, `MaxVirtualRegisters = 100`, index 0. -/
theorem roundtrip_fails_witness :
    (0 : Nat) < 32 ∧ isOkResult (VMRegImpl.as_Register ((0 : Nat) : Int)) = false :=
  ⟨by decide, (roundtrip_fails 32 32 100 0 (by decide)).2.2⟩

/-- C6 as stated fails on the code: at index 32 (which is `≥ MaxGPR` for the
ppc value `MaxGPR = 32`), the reverse lookup does not signal `OutOfRange`. -/
theorem as_Register_oor_cex :
    VMRegImpl.as_Register 32 ≠ Except.error RegError.OutOfRange := by
  intro h
  unfold VMRegImpl.as_Register at h
  exact RegError.noConfusion (Except.error.inj h)

/-- C6 amended: `as_Register` signals `UnimplementedPath`, never `OutOfRange`,
for every index — in particular for every `i ≥ MaxGPR` and every negative
index — and returns a register for no index at all. -/
theorem as_Register_never_oor :
    ∀ idx : Int,
      VMRegImpl.as_Register idx ≠ Except.error RegError.OutOfRange ∧
      isOkResult (VMRegImpl.as_Register idx) = false := by
  intro idx
  refine ⟨?_, rfl⟩
  intro h
  unfold VMRegImpl.as_Register at h
  exact RegError.noConfusion (Except.error.inj h)

/-- Witness for the amended reverse-lookup theorem at the concrete index 5:
the call returns no register. -/
theorem as_Register_never_oor_witness :
    isOkResult (VMRegImpl.as_Register 5) = false :=
  (as_Register_never_oor 5).2

/-- C7: during table construction the trap loop signals the unimplemented
trap exactly on the indices in `[MaxGPR + MaxFPR, MaxVirtualRegisters)`, and
no name is written for such slots. -/
theorem set_regName_trap_range (G F V i : Nat) :
    (i ∈ (set_regName (archConsts G F V)).traps ↔ G + F ≤ i ∧ i < V) ∧
    (G + F ≤ i → (set_regName (archConsts G F V)).table i = none) := by
  constructor
  · rw [set_regName_traps, archConsts_max_gpr, archConsts_max_fpr,
      archConsts_number, trapLoop_mem]
    omega
  · intro hi
    rw [set_regName_table, archConsts_max_gpr, archConsts_max_fpr]
    rw [if_neg (show ¬(G ≤ i ∧ i < G + F) from by omega),
      if_neg (show ¬(i < G) from by omega)]

/-- Witness for the trap-range theorem at `MaxGPR = 32`, `MaxFPR = 32`,
`MaxVirtualRegisters = 100`, slot 64. -/
theorem set_regName_trap_range_witness :
    64 ∈ (set_regName (archConsts 32 32 100)).traps ∧
    (set_regName (archConsts 32 32 100)).table 64 = none :=
  ⟨(set_regName_trap_range 32 32 100 64).1.mpr (by decide),
    (set_regName_trap_range 32 32 100 64).2 (by decide)⟩

/-- C8: the index-to-register mapping established by `set_regName` is a
strict, gap-free, order-preserving bijection over the physical range: every
slot in `[0, MaxGPR + MaxFPR)` holds the name of its register, distinct
indices map to distinct registers, consecutive indices within a class map to
successor-consecutive registers, index 0 maps to the first integer register,
and every physical register of either class is reached by some index. -/
theorem indexToPhysReg_bijection (G F V : Nat) (hg : 0 < G) :
    (∀ i, i < G + F →
      (set_regName (archConsts G F V)).table i =
        some (PhysReg.regname (indexToPhysReg G i))) ∧
    (∀ i j, i < G + F → j < G + F →
      indexToPhysReg G i = indexToPhysReg G j → i = j) ∧
    (∀ i, i + 1 < G + F → (i + 1 < G ∨ G ≤ i) →
      indexToPhysReg G (i + 1) = PhysReg.succReg (indexToPhysReg G i)) ∧
    indexToPhysReg G 0 = PhysReg.gpr 0 ∧
    (∀ r, r < G → ∃ i, i < G + F ∧ indexToPhysReg G i = PhysReg.gpr r) ∧
    (∀ r, r < F → ∃ i, i < G + F ∧ indexToPhysReg G i = PhysReg.fpr r) := by
  refine ⟨?_, ?_, ?_, ?_, ?_, ?_⟩
  · intro i hi
    rw [set_regName_table, archConsts_max_gpr, archConsts_max_fpr]
    unfold indexToPhysReg
    by_cases h1 : i < G
    · rw [if_neg (show ¬(G ≤ i ∧ i < G + F) from by omega), if_pos h1,
        if_pos h1]
      rfl
    · rw [if_pos (show G ≤ i ∧ i < G + F from ⟨by omega, hi⟩), if_neg h1]
      rfl
  · intro i j hi hj heq
    unfold indexToPhysReg at heq
    by_cases h1 : i < G <;> by_cases h2 : j < G
    · rw [if_pos h1, if_pos h2] at heq
      exact PhysReg.gpr.inj heq
    · rw [if_pos h1, if_neg h2] at heq
      exact PhysReg.noConfusion heq
    · rw [if_neg h1, if_pos h2] at heq
      exact PhysReg.noConfusion heq
    · rw [if_neg h1, if_neg h2] at heq
      have h := PhysReg.fpr.inj heq
      omega
  · intro i hi hcl
    unfold indexToPhysReg
    rcases hcl with h | h
    · rw [if_pos h, if_pos (show i < G from by omega)]
      rfl
    · rw [if_neg (show ¬(i + 1 < G) from by omega),
        if_neg (show ¬(i < G) from by omega)]
      unfold PhysReg.succReg FloatRegister.successor
      have harg : i + 1 - G = i - G + 1 := by omega
      rw [harg]
  · unfold indexToPhysReg
    rw [if_pos hg]
  · intro r hr
    refine ⟨r, by omega, ?_⟩
    unfold indexToPhysReg
    rw [if_pos hr]
  · intro r hr
    refine ⟨G + r, by omega, ?_⟩
    unfold indexToPhysReg
    rw [if_neg (show ¬(G + r < G) from by omega)]
    have harg : G + r - G = r := by omega
    rw [harg]

/-- Witness for the bijection theorem at `MaxGPR = 32`, `MaxFPR = 32`,
`MaxVirtualRegisters = 100`: index 0 maps to the first integer register. -/
theorem indexToPhysReg_bijection_witness :
    (0 : Nat) < 32 ∧ indexToPhysReg 32 0 = PhysReg.gpr 0 :=
  ⟨by decide, (indexToPhysReg_bijection 32 32 100 (by decide)).2.2.2.1⟩

/-- C9: `set_regName` terminates for every choice of the compile-time
constants: each loop advances its cursor by one per iteration up to a fixed
bound, the cursors reach exactly those bounds, and the trap loop runs a
bounded number of iterations. -/
theorem set_regName_terminates (g f n : Nat) :
    ∃ r : BuildResult, set_regName ⟨g, f, n⟩ = r ∧
      r.cursorAfterGpr = g ∧ r.cursorAfterFpr = max g f ∧
      r.traps.length = n - max g f := by
  refine ⟨set_regName ⟨g, f, n⟩, rfl, ?_, ?_, ?_⟩
  · rw [set_regName_cursorAfterGpr]
  · rw [set_regName_cursorAfterFpr]
  · rw [set_regName_traps, trapLoop_length]

/-- C10: `set_regName` reaches the Unimplemented trap iff
`number_of_registers` exceeds the larger of `max_gpr` and `max_fpr`; whenever
`number_of_registers ≤ max_fpr` and `max_gpr ≤ max_fpr`, the trap loop runs
zero iterations, the routine completes normally, and exactly the slots
`[0, max_fpr)` are written. -/
theorem set_regName_trap_condition (g f n : Nat) :
    ((set_regName ⟨g, f, n⟩).traps ≠ [] ↔ max g f < n) ∧
    (g ≤ f → n ≤ f →
      (set_regName ⟨g, f, n⟩).traps = [] ∧
      (∀ i, i < f → ((set_regName ⟨g, f, n⟩).table i).isSome = true) ∧
      (∀ i, f ≤ i → (set_regName ⟨g, f, n⟩).table i = none)) := by
  constructor
  · rw [ne_eq, set_regName_traps, trapLoop_eq_nil]
    dsimp only
    omega
  · intro hgf hnf
    refine ⟨?_, ?_, ?_⟩
    · rw [set_regName_traps, trapLoop_eq_nil]
      dsimp only
      omega
    · intro i hi
      rw [set_regName_table]
      dsimp only
      by_cases h1 : g ≤ i
      · rw [if_pos (show g ≤ i ∧ i < f from ⟨h1, hi⟩)]
        rfl
      · rw [if_neg (show ¬(g ≤ i ∧ i < f) from by omega),
          if_pos (show i < g from by omega)]
        rfl
    · intro i hi
      rw [set_regName_table]
      dsimp only
      rw [if_neg (show ¬(g ≤ i ∧ i < f) from by omega),
        if_neg (show ¬(i < g) from by omega)]

/-- Witness for the trap-condition theorem at `max_gpr = 2`, `max_fpr = 3`,
`number_of_registers = 3`: the routine completes normally. -/
theorem set_regName_trap_condition_witness :
    2 ≤ 3 ∧ 3 ≤ 3 ∧ (set_regName ⟨2, 3, 3⟩).traps = [] :=
  ⟨by decide, by decide,
    ((set_regName_trap_condition 2 3 3).2 (by decide) (by decide)).1⟩

end Vmreg
